import Mathlib

/-!
Verification of the ledger aggregation, commission-calculation and
persistence logic of the Centro Medico financial dashboard.

The embedding follows the TypeScript source:
  * `src/types.ts` — the record types;
  * `src/components/Dashboard.tsx` — the canonical dashboard (storage key
    v101, with a second v100 copy concatenated below it), holding the load
    and save effects, export and restore, the daily and monthly
    aggregations, the commission split in `addReceipt`, and
    `selectedProfDetails`;
  * `src/unnamed/part_000` — an older dashboard revision (storage key
    v100) whose save effect has no load guard;
  * `src/unnamed/part_001` — a later revision (v102) with the same split
    formula.

Currency amounts are embedded as rationals: JavaScript numbers are binary
floats, but every algebraic fact proved here is exact over the rationals
and the spec only demands the identities up to floating-point tolerance.
Clock readings, generated identifiers and form inputs are passed to the
operations as explicit arguments.
-/

namespace CentroMedico

/-! ## Data model (src/types.ts) -/

/-- Professional record, src/types.ts lines 2-9.  The commission
percentage is an integer produced by parseInt in the form handlers. -/
structure Professional where
  id : String
  name : String
  specialty : String
  phone : String
  percentage : ℤ
  createdAt : String
  deriving DecidableEq, Repr

/-- Patient record, src/types.ts lines 11-19. -/
structure Patient where
  id : String
  name : String
  phone : String
  email : Option String
  address : Option String
  birthDate : Option String
  createdAt : String
  deriving DecidableEq, Repr

/-- Receipt record, src/types.ts lines 21-31.  The payment method is kept
as a raw string: the form offers only pix, dinheiro, cartao and unimed,
but imported snapshots can carry anything. -/
structure Receipt where
  id : String
  grossValue : ℚ
  netClinic : ℚ
  professionalValue : ℚ
  professionalId : String
  professionalName : String
  serviceType : String
  paymentMethod : String
  date : String
  deriving DecidableEq, Repr

/-- Expense record, src/types.ts lines 33-40. -/
structure Expense where
  id : String
  value : ℚ
  category : String
  description : String
  paymentMethod : String
  date : String
  deriving DecidableEq, Repr

/-- Product record, src/types.ts lines 42-47. -/
structure Product where
  id : String
  name : String
  quantity : ℤ
  minQuantity : ℤ
  deriving DecidableEq, Repr

/-- DailyConfig record, src/types.ts lines 49-52. -/
structure DailyConfig where
  date : String
  initialCash : ℚ
  deriving DecidableEq, Repr

/-- Service type entry, the `{nome, valor}` pairs of the serviceTypes
state in Dashboard.tsx line 36. -/
structure ServiceType where
  nome : String
  valor : String
  deriving DecidableEq, Repr

/-! ## Commission calculator

Dashboard.tsx lines 176-177 (identically lines 663-664 of the v100 copy
and part_001 lines 92-101):

  const profValue = prof.percentage === 100 ? 0 : gross * (prof.percentage / 100);
  const net = gross - profValue;
-/

/-- Commission paid to the professional, from `addReceipt`. -/
def professionalShare (gross : ℚ) (percentage : ℤ) : ℚ :=
  if percentage = 100 then 0 else gross * ((percentage : ℚ) / 100)

/-- Amount kept by the clinic, from `addReceipt`. -/
def clinicNet (gross : ℚ) (percentage : ℤ) : ℚ :=
  gross - professionalShare gross percentage

/-! ## Persistence adapter

The durable slot is a single localStorage key holding one JSON blob with
the seven top-level fields listed in Dashboard.tsx line 79.  A field of
the parsed blob is modelled as `Option`: `none` when the field is absent
or falsy, `some l` when it holds an array (an empty JSON array is truthy,
so it is `some []`).  A stored string that does not parse is modelled by
the `garbage` constructor: `JSON.parse` throws on it and the surrounding
try/catch fires. -/

/-- Parsed shape of the persisted blob. -/
structure StoredData where
  professionals : Option (List Professional)
  patients : Option (List Patient)
  receipts : Option (List Receipt)
  expenses : Option (List Expense)
  products : Option (List Product)
  dailyConfigs : Option (List DailyConfig)
  serviceTypes : Option (List ServiceType)
  deriving DecidableEq, Repr

/-- Content of the durable slot: either a string that parses to
`StoredData` or one on which `JSON.parse` throws. -/
inductive Blob where
  | valid : StoredData → Blob
  | garbage : String → Blob
  deriving DecidableEq, Repr

/-- In-memory state: the seven collections held in React state,
Dashboard.tsx lines 30-41. -/
structure AppState where
  professionals : List Professional
  patients : List Patient
  receipts : List Receipt
  expenses : List Expense
  products : List Product
  dailyConfigs : List DailyConfig
  serviceTypes : List ServiceType
  deriving DecidableEq, Repr

/-- Default service-type catalog, Dashboard.tsx lines 36-41. -/
def defaultServiceTypes : List ServiceType :=
  [⟨"Consulta", "consulta"⟩, ⟨"Procedimento", "procedimento"⟩,
   ⟨"Retorno", "retorno"⟩, ⟨"Cirurgia", "cirurgia"⟩]

/-- Initial React state: empty collections except the default
service-type catalog, Dashboard.tsx lines 30-41. -/
def initialState : AppState :=
  { professionals := [], patients := [], receipts := [], expenses := [],
    products := [], dailyConfigs := [], serviceTypes := defaultServiceTypes }

/-- Serialization performed by the save effect and by `exportData`,
Dashboard.tsx lines 79-80 and 86-87: `JSON.stringify` of an object that
always carries all seven fields. -/
def serialize (s : AppState) : StoredData :=
  { professionals := some s.professionals, patients := some s.patients,
    receipts := some s.receipts, expenses := some s.expenses,
    products := some s.products, dailyConfigs := some s.dailyConfigs,
    serviceTypes := some s.serviceTypes }

/-- Field-by-field merge performed by the load effect, Dashboard.tsx
lines 61-68: each `if (data.f) setF(data.f)` keeps the current value when
the field is absent. -/
def mergeFromData (s : AppState) (d : StoredData) : AppState :=
  { professionals := d.professionals.getD s.professionals,
    patients := d.patients.getD s.patients,
    receipts := d.receipts.getD s.receipts,
    expenses := d.expenses.getD s.expenses,
    products := d.products.getD s.products,
    dailyConfigs := d.dailyConfigs.getD s.dailyConfigs,
    serviceTypes := d.serviceTypes.getD s.serviceTypes }

/-- Load effect, Dashboard.tsx lines 57-74: absent slot leaves the state
alone, an unparsable slot is caught by the try/catch and also leaves the
state alone (totality of this function models the catch), and a parsed
blob is merged field by field. -/
def loadState (s : AppState) (slot : Option Blob) : AppState :=
  match slot with
  | none => s
  | some (Blob.garbage _) => s
  | some (Blob.valid d) => mergeFromData s d

/-- Wholesale replacement performed by `importData`, Dashboard.tsx lines
104-110: the six record collections default to the empty array
(`data.f || []`) while serviceTypes is only replaced when present. -/
def replaceFromData (s : AppState) (d : StoredData) : AppState :=
  { professionals := d.professionals.getD [],
    patients := d.patients.getD [],
    receipts := d.receipts.getD [],
    expenses := d.expenses.getD [],
    products := d.products.getD [],
    dailyConfigs := d.dailyConfigs.getD [],
    serviceTypes := d.serviceTypes.getD s.serviceTypes }

/-- Outcome reported to the user by `importData`. -/
inductive ImportOutcome where
  | parseError : ImportOutcome
  | cancelled : ImportOutcome
  | replaced : ImportOutcome
  deriving DecidableEq, Repr

/-- Import handler, Dashboard.tsx lines 96-118: parse first (a throw is
caught and alerts without touching state), then ask for confirmation,
then replace the whole state. -/
def importSnapshot (s : AppState) (b : Blob) (confirmed : Bool) :
    AppState × ImportOutcome :=
  match b with
  | Blob.garbage _ => (s, ImportOutcome.parseError)
  | Blob.valid d =>
    if confirmed then (replaceFromData s d, ImportOutcome.replaced)
    else (s, ImportOutcome.cancelled)

/-! ## Startup write sequences

React runs the effects of a render in declaration order after that
render, with the closures capturing the state values of that render; a
`setState` call inside an effect triggers a new render whose effects see
the new values.  The functions below record, in order, the `StoredData`
values written to the durable slot during startup (render 1, its two
effects, then the re-render caused by the load effect setters). -/

/-- Save effect of the canonical dashboard, Dashboard.tsx lines 77-82:
writes only when the captured `isLoaded` flag is true. -/
def saveEffectWrites (isLoaded : Bool) (st : AppState) : List StoredData :=
  if isLoaded then [serialize st] else []

/-- Startup writes of the canonical dashboard (Dashboard.tsx lines 57-82).
Render 1 carries the initial state with `isLoaded = false`; the load
effect merges the slot and sets `isLoaded := true`; the guarded save
effect of render 1 writes nothing; after the re-render the save effect
writes the loaded state. -/
def startupWritesGuarded (slot : Option Blob) : List StoredData :=
  saveEffectWrites false initialState ++
    saveEffectWrites true (loadState initialState slot)

/-- Startup writes of the part_000 revision (src/unnamed/part_000 lines
40-59), whose save effect has no guard: the save effect of render 1 runs
right after the load effect finishes but its closure still holds the
initial empty state of render 1, so it writes that state; the re-render
then writes the loaded state.  part_000 loads with the `data.f || []`
replacement shape (part_000 lines 45-51). -/
def startupWritesUnguarded (slot : Option Blob) : List StoredData :=
  let loaded :=
    match slot with
    | none => initialState
    | some (Blob.garbage _) => initialState
    | some (Blob.valid d) => replaceFromData initialState d
  [serialize initialState] ++ [serialize loaded]

/-! ## Ledger aggregator -/

/-- Date component of an ISO local timestamp: everything before the first
letter T, the value of the split at T taken at index 0 in Dashboard.tsx
line 129 (for a string without a T the split returns the whole string,
as does takeWhile). -/
def dateComponent (s : String) : String :=
  String.mk (s.data.takeWhile (fun c => c ≠ 'T'))

/-- Lexicographic strictly-less test on character lists: the semantics of
localeCompare on the ASCII timestamp strings of this ledger, where the
locale collation coincides with code-unit order. -/
def charsLtb : List Char → List Char → Bool
  | _, [] => false
  | [], _ :: _ => true
  | a :: as, b :: bs =>
    if a < b then true else if b < a then false else charsLtb as bs

/-- Strictly-earlier test on timestamp strings, the sign of
a.localeCompare(b) being negative. -/
def dateLtb (s t : String) : Bool :=
  charsLtb s.data t.data

/-- Insertion of a receipt into a list sorted by descending date, placing
it before the first receipt of equal or earlier date.  Together with
`sortByDateDesc` this realizes the stable descending sort performed by
Array.prototype.sort (stable per the ECMAScript specification) with the
comparator comparing dates of b against a via localeCompare, Dashboard.tsx
line 131. -/
def insertDesc (r : Receipt) : List Receipt → List Receipt
  | [] => [r]
  | x :: xs =>
    if dateLtb r.date x.date then x :: insertDesc r xs else r :: x :: xs

/-- Stable sort by descending date string, Dashboard.tsx line 131. -/
def sortByDateDesc : List Receipt → List Receipt
  | [] => []
  | x :: xs => insertDesc x (sortByDateDesc xs)

/-- Daily receipt list, Dashboard.tsx lines 128-131: keep the receipts
with a nonempty (truthy) date whose date component equals the reference
date, then sort by descending timestamp. -/
def dailyReceipts (receipts : List Receipt) (currentDate : String) : List Receipt :=
  sortByDateDesc (receipts.filter fun r =>
    !(r.date == "") && (dateComponent r.date == currentDate))

/-- Sum of gross values, the reduce in Dashboard.tsx line 139. -/
def sumGross (l : List Receipt) : ℚ :=
  l.foldl (fun s r => s + r.grossValue) 0

/-- Sum of professional values, the reduce in Dashboard.tsx line 713. -/
def sumProfessional (l : List Receipt) : ℚ :=
  l.foldl (fun s r => s + r.professionalValue) 0

/-- Sum of net-clinic values, the reduce in Dashboard.tsx line 141. -/
def sumNet (l : List Receipt) : ℚ :=
  l.foldl (fun s r => s + r.netClinic) 0

/-- Year component of an ISO local timestamp, characters 0 to 3: the
value of getFullYear after local-time parsing of a YYYY-MM-DDTHH:MM:SS
string (new Date in Dashboard.tsx lines 146-151 parses such strings in
local time, so the calendar fields are read off the string). -/
def yearOf (s : String) : String :=
  String.mk (s.data.take 4)

/-- Month component of an ISO local timestamp, characters 5 and 6: the
value of getMonth under local-time parsing, up to the zero-based shift
which cancels on both sides of the comparison. -/
def monthOf (s : String) : String :=
  String.mk ((s.data.drop 5).take 2)

/-- Monthly receipt list, Dashboard.tsx lines 145-153: keep the receipts
whose calendar month and year match those of the reference date (the
reference is parsed with a T12:00:00 suffix, which leaves its first ten
characters unchanged). -/
def monthlyReceipts (receipts : List Receipt) (currentDate : String) : List Receipt :=
  receipts.filter fun r =>
    (monthOf r.date == monthOf currentDate) && (yearOf r.date == yearOf currentDate)

/-- Per-payment-method accumulator, Dashboard.tsx line 613. -/
structure AccountTotals where
  pix : ℚ
  dinheiro : ℚ
  cartao : ℚ
  unimed : ℚ
  deriving DecidableEq, Repr

/-- One step of the forEach loop of dailyAccountTotals, Dashboard.tsx
lines 614-617: add the gross value to the field named by the payment
method when it is one of the four keys of the accumulator, else do
nothing. -/
def accountStep (acc : AccountTotals) (r : Receipt) : AccountTotals :=
  if r.paymentMethod = "pix" then { acc with pix := acc.pix + r.grossValue }
  else if r.paymentMethod = "dinheiro" then
    { acc with dinheiro := acc.dinheiro + r.grossValue }
  else if r.paymentMethod = "cartao" then
    { acc with cartao := acc.cartao + r.grossValue }
  else if r.paymentMethod = "unimed" then
    { acc with unimed := acc.unimed + r.grossValue }
  else acc

/-- Daily per-payment-method totals, Dashboard.tsx lines 612-619 (the
same loop shape builds the paymentTotals of selectedProfDetails at line
711). -/
def dailyAccountTotals (l : List Receipt) : AccountTotals :=
  l.foldl accountStep ⟨0, 0, 0, 0⟩

/-! ## Per-professional breakdown and roster deletion -/

/-- Result shape of selectedProfDetails, Dashboard.tsx line 715. -/
structure ProfDetails where
  prof : Professional
  profRecs : List Receipt
  paymentTotals : AccountTotals
  bVal : ℚ
  pVal : ℚ
  cVal : ℚ
  deriving DecidableEq, Repr

/-- Per-professional daily breakdown, Dashboard.tsx lines 705-716: when
no index is selected or the index resolves to no professional the result
is null; otherwise the daily receipts are filtered by the professional id
and summed. -/
def selectedProfDetails (selectedProfIndex : Option ℕ)
    (professionals : List Professional) (dRecs : List Receipt) :
    Option ProfDetails :=
  match selectedProfIndex with
  | none => none
  | some i =>
    match professionals[i]? with
    | none => none
    | some prof =>
      let profRecs := dRecs.filter fun r => r.professionalId == prof.id
      some { prof := prof, profRecs := profRecs,
             paymentTotals := dailyAccountTotals profRecs,
             bVal := sumGross profRecs, pVal := sumProfessional profRecs,
             cVal := sumNet profRecs }

/-- Breakdown record with zero totals for a professional, the value the
claim about deleted professionals expects. -/
def zeroDetailsFor (p : Professional) : ProfDetails :=
  { prof := p, profRecs := [], paymentTotals := ⟨0, 0, 0, 0⟩,
    bVal := 0, pVal := 0, cVal := 0 }

/-- Professional delete handler, Dashboard.tsx line 791: the professional
is filtered out of the roster; no other collection is touched. -/
def removeProfessional (s : AppState) (pid : String) : AppState :=
  { s with professionals := s.professionals.filter fun p => !(p.id == pid) }

/-! ## Runtime machine and reachability

A machine holds the React state, the durable localStorage slot and the
isLoaded flag.  Every mutation handler is followed by the save effect it
triggers (Dashboard.tsx lines 77-82).  Identifier generation and clock
readings are nondeterministic in the source and are passed as explicit
arguments. -/

/-- Runtime state of one browser tab plus its durable slot. -/
structure Machine where
  state : AppState
  slot : Option Blob
  isLoaded : Bool
  deriving DecidableEq, Repr

/-- Save effect, Dashboard.tsx lines 77-82: with the loaded flag set it
serializes the whole state into the slot, otherwise it does nothing. -/
def autosave (m : Machine) : Machine :=
  if m.isLoaded then { m with slot := some (Blob.valid (serialize m.state)) }
  else m

/-- Fresh install: initial state, empty slot, load not yet run. -/
def initMachine : Machine :=
  { state := initialState, slot := none, isLoaded := false }

/-- Load effect followed by the save effect triggered by the isLoaded
flip, Dashboard.tsx lines 57-82. -/
def loadStep (m : Machine) : Machine :=
  autosave { m with state := loadState m.state m.slot, isLoaded := true }

/-- Tab close and reopen: the React state resets to its initial value and
the durable slot persists. -/
def restartStep (m : Machine) : Machine :=
  { m with state := initialState, isLoaded := false }

/-- New-professional form handler, Dashboard.tsx lines 940-947. -/
def addProfessionalStep (m : Machine) (p : Professional) : Machine :=
  autosave { m with state :=
    { m.state with professionals := m.state.professionals ++ [p] } }

/-- handleEditProfSave, Dashboard.tsx lines 202-215. -/
def editProfessionalStep (m : Machine) (pid nm spec phone : String)
    (perc : ℤ) : Machine :=
  autosave { m with state :=
    { m.state with professionals := m.state.professionals.map (fun p =>
        if p.id == pid then
          { p with
            name := nm,
            specialty := spec,
            phone := phone,
            percentage := perc }
        else p) } }

/-- Professional delete handler, Dashboard.tsx line 791, with its
autosave. -/
def removeProfessionalStep (m : Machine) (pid : String) : Machine :=
  autosave { m with state := removeProfessional m.state pid }

/-- addReceipt, Dashboard.tsx lines 166-200: the handler validates the
selected professional and the parsed gross value (`none` models a NaN
parse) and otherwise appends a receipt computed with the commission
split; the generated id and the timestamp are passed as arguments. -/
def addReceiptStep (m : Machine) (profIndex : ℕ) (gross : Option ℚ)
    (serviceType method newId date : String) : Machine :=
  match m.state.professionals[profIndex]?, gross with
  | some prof, some g =>
    autosave { m with state :=
      { m.state with receipts := m.state.receipts ++
        [{ id := newId, grossValue := g,
           professionalValue := professionalShare g prof.percentage,
           netClinic := clinicNet g prof.percentage,
           professionalId := prof.id, professionalName := prof.name,
           serviceType := serviceType, paymentMethod := method,
           date := date }] } }
  | _, _ => m

/-- Receipt delete handler, Dashboard.tsx line 396, with its autosave. -/
def removeReceiptStep (m : Machine) (rid : String) : Machine :=
  autosave { m with state :=
    { m.state with receipts := m.state.receipts.filter fun r => !(r.id == rid) } }

/-- importData followed by the autosave its setters trigger. -/
def importStep (m : Machine) (b : Blob) (confirmed : Bool) : Machine :=
  autosave { m with state := (importSnapshot m.state b confirmed).1 }

/-- Machines reachable by the operations of the dashboard, starting from
a fresh install. -/
inductive Reachable : Machine → Prop where
  | init : Reachable initMachine
  | load {m} : Reachable m → Reachable (loadStep m)
  | restart {m} : Reachable m → Reachable (restartStep m)
  | addProf {m} (p : Professional) :
      Reachable m → Reachable (addProfessionalStep m p)
  | editProf {m} (pid nm spec phone : String) (perc : ℤ) :
      Reachable m → Reachable (editProfessionalStep m pid nm spec phone perc)
  | removeProf {m} (pid : String) :
      Reachable m → Reachable (removeProfessionalStep m pid)
  | addRec {m} (i : ℕ) (g : Option ℚ) (st me nid dt : String) :
      Reachable m → Reachable (addReceiptStep m i g st me nid dt)
  | removeRec {m} (rid : String) :
      Reachable m → Reachable (removeReceiptStep m rid)
  | importAny {m} (b : Blob) (c : Bool) :
      Reachable m → Reachable (importStep m b c)

/-- Accounting identity of a single receipt. -/
def receiptOK (r : Receipt) : Prop :=
  r.professionalValue + r.netClinic = r.grossValue

/-- Blobs whose receipts, when present, satisfy the accounting
identity. -/
def BlobOK : Blob → Prop
  | Blob.garbage _ => True
  | Blob.valid d => ∀ r ∈ d.receipts.getD [], receiptOK r

/-- Reachability restricted to imports of snapshots whose receipts
satisfy the accounting identity (importData performs no validation, so
this is a hypothesis on the supplied files, not on the code). -/
inductive ReachableSound : Machine → Prop where
  | init : ReachableSound initMachine
  | load {m} : ReachableSound m → ReachableSound (loadStep m)
  | restart {m} : ReachableSound m → ReachableSound (restartStep m)
  | addProf {m} (p : Professional) :
      ReachableSound m → ReachableSound (addProfessionalStep m p)
  | editProf {m} (pid nm spec phone : String) (perc : ℤ) :
      ReachableSound m →
      ReachableSound (editProfessionalStep m pid nm spec phone perc)
  | removeProf {m} (pid : String) :
      ReachableSound m → ReachableSound (removeProfessionalStep m pid)
  | addRec {m} (i : ℕ) (g : Option ℚ) (st me nid dt : String) :
      ReachableSound m → ReachableSound (addReceiptStep m i g st me nid dt)
  | removeRec {m} (rid : String) :
      ReachableSound m → ReachableSound (removeReceiptStep m rid)
  | importOk {m} (b : Blob) (c : Bool) :
      BlobOK b → ReachableSound m → ReachableSound (importStep m b c)

/-- Every receipt of the state satisfies the accounting identity. -/
def StateOK (s : AppState) : Prop :=
  ∀ r ∈ s.receipts, receiptOK r

/-- The slot content, when present, satisfies the accounting identity. -/
def SlotOK : Option Blob → Prop
  | none => True
  | some b => BlobOK b

/-! ## Concrete demonstration values -/

/-- Sample professional with a 30 percent commission. -/
def demoProfessional : Professional :=
  { id := "p1", name := "Dra. Ana", specialty := "Cardiologia",
    phone := "88999990000", percentage := 30, createdAt := "2024-05-01T08:00:00" }

/-- Persisted blob holding one professional and nothing else, used to
exercise the startup sequence against pre-existing durable data. -/
def demoStored : StoredData :=
  { professionals := some [demoProfessional], patients := some [],
    receipts := some [], expenses := some [], products := some [],
    dailyConfigs := some [], serviceTypes := some defaultServiceTypes }

/-- Parseable blob with every top-level field absent, as produced by the
JSON text of an empty object. -/
def allAbsentStored : StoredData :=
  { professionals := none, patients := none, receipts := none,
    expenses := none, products := none, dailyConfigs := none,
    serviceTypes := none }

/-- Receipt registered for demoProfessional: 30 percent of 200. -/
def demoReceipt : Receipt :=
  { id := "r1", grossValue := 200, netClinic := 140, professionalValue := 60,
    professionalId := "p1", professionalName := "Dra. Ana",
    serviceType := "consulta", paymentMethod := "pix",
    date := "2024-05-01T10:00:00" }

/-- Ledger holding one professional and one of their receipts. -/
def demoLedger : AppState :=
  { initialState with
    professionals := [demoProfessional],
    receipts := [demoReceipt] }

/-- Receipt violating the accounting identity, as an imported snapshot
file can carry (importData parses but never validates). -/
def badReceipt : Receipt :=
  { id := "bad1", grossValue := 5, netClinic := 1, professionalValue := 1,
    professionalId := "p9", professionalName := "X",
    serviceType := "consulta", paymentMethod := "pix",
    date := "2024-06-01T09:00:00" }

/-- Parseable snapshot carrying the invalid receipt. -/
def badStored : StoredData :=
  { professionals := some [], patients := some [],
    receipts := some [badReceipt], expenses := some [], products := some [],
    dailyConfigs := some [], serviceTypes := none }

/-- Machine after a fresh install, the initial load, and a confirmed
restore of the invalid snapshot. -/
def badImportMachine : Machine :=
  (importStep (loadStep initMachine) (Blob.valid badStored) true)

/-- Machine after a fresh install, the initial load, registration of
demoProfessional and one receipt of 200 at 30 percent. -/
def soundDemoMachine : Machine :=
  addReceiptStep (addProfessionalStep (loadStep initMachine) demoProfessional)
    0 (some 200) "consulta" "pix" "r1" "2024-05-01T10:00:00"

/-- The receipt `soundDemoMachine` holds, exactly as addReceipt builds
it. -/
def soundDemoReceipt : Receipt :=
  { id := "r1", grossValue := 200,
    professionalValue := professionalShare 200 demoProfessional.percentage,
    netClinic := clinicNet 200 demoProfessional.percentage,
    professionalId := "p1", professionalName := "Dra. Ana",
    serviceType := "consulta", paymentMethod := "pix",
    date := "2024-05-01T10:00:00" }

/-- First of two receipts sharing one timestamp. -/
def tieReceiptA : Receipt :=
  { id := "a1", grossValue := 100, netClinic := 70, professionalValue := 30,
    professionalId := "p1", professionalName := "Dra. Ana",
    serviceType := "consulta", paymentMethod := "pix",
    date := "2024-05-01T10:00:00" }

/-- Second receipt with the same timestamp, added after the first. -/
def tieReceiptB : Receipt :=
  { id := "b2", grossValue := 50, netClinic := 35, professionalValue := 15,
    professionalId := "p1", professionalName := "Dra. Ana",
    serviceType := "retorno", paymentMethod := "dinheiro",
    date := "2024-05-01T10:00:00" }

/-- Receipt timestamped on the last second of May 2024. -/
def mayReceipt : Receipt :=
  { id := "m1", grossValue := 80, netClinic := 56, professionalValue := 24,
    professionalId := "p1", professionalName := "Dra. Ana",
    serviceType := "consulta", paymentMethod := "cartao",
    date := "2024-05-31T23:59:59" }

end CentroMedico

namespace CentroMedico

/-- C1: the commission split of a validated receipt submission.  When the
percentage is 100 the professional share is 0 and the clinic keeps the
gross value; otherwise the share is gross times percentage over 100 and
the clinic keeps the remainder; in particular 30 percent of 200 gives
60 and 140, and the sentinel 100 on 500 gives 0 and 500. -/
theorem commission_split_correct (g : ℚ) (p : ℤ) :
    (p = 100 → professionalShare g p = 0 ∧ clinicNet g p = g) ∧
    (p ≠ 100 →
      professionalShare g p = g * ((p : ℚ) / 100) ∧
      clinicNet g p = g - professionalShare g p) ∧
    professionalShare 200 30 = 60 ∧ clinicNet 200 30 = 140 ∧
    professionalShare 500 100 = 0 ∧ clinicNet 500 100 = 500 := by
  refine ⟨?_, ?_, ?_, ?_, ?_, ?_⟩
  · intro hp
    simp [professionalShare, clinicNet, hp]
  · intro hp
    simp [professionalShare, clinicNet, hp]
  · norm_num [professionalShare]
  · norm_num [clinicNet, professionalShare]
  · norm_num [professionalShare]
  · norm_num [clinicNet, professionalShare]

/-- Witness for `commission_split_correct` at percentage 100 and
gross 500. -/
theorem commission_split_correct_witness :
    professionalShare 500 100 = 0 ∧ clinicNet 500 100 = 500 :=
  (commission_split_correct 500 100).1 rfl

/-- C4: persistence round-trip.  Loading the blob written by the save
effect from a fresh session reconstructs every collection of the saved
state exactly. -/
theorem load_save_roundtrip (s : AppState) :
    loadState initialState (some (Blob.valid (serialize s))) = s :=
  rfl

/-- C5: import of a snapshot that fails to parse reports a parse error
and leaves the in-memory state exactly unchanged, whatever the current
state and whatever the user would have answered to the confirmation
dialog. -/
theorem import_garbage_atomic (s : AppState) (txt : String) (confirmed : Bool) :
    (importSnapshot s (Blob.garbage txt) confirmed).1 = s ∧
    (importSnapshot s (Blob.garbage txt) confirmed).2 = ImportOutcome.parseError :=
  ⟨rfl, rfl⟩

/-- Counterexample to C6: a parseable blob with every top-level field
absent loads to the initial state, whose serviceTypes collection is the
four-entry default catalog and not an empty collection, so a missing
top-level field does not always map to an empty collection. -/
theorem load_missing_serviceTypes_not_empty :
    loadState initialState (some (Blob.valid allAbsentStored)) = initialState ∧
    (loadState initialState (some (Blob.valid allAbsentStored))).serviceTypes ≠ [] := by
  constructor
  · rfl
  · intro h
    simp [loadState, mergeFromData, allAbsentStored, initialState,
      defaultServiceTypes] at h

/-- C6 amended: a slot that is absent or fails to parse loads to the
initial state, exactly as if no saved data existed, without failing; in a
parseable blob each missing record field among the six record collections
maps to the empty collection, while a missing serviceTypes field maps to
the default four-entry catalog. -/
theorem load_failure_falls_back (txt : String) (d : StoredData) :
    loadState initialState none = initialState ∧
    loadState initialState (some (Blob.garbage txt)) = initialState ∧
    (d.professionals = none →
      (loadState initialState (some (Blob.valid d))).professionals = []) ∧
    (d.patients = none →
      (loadState initialState (some (Blob.valid d))).patients = []) ∧
    (d.receipts = none →
      (loadState initialState (some (Blob.valid d))).receipts = []) ∧
    (d.expenses = none →
      (loadState initialState (some (Blob.valid d))).expenses = []) ∧
    (d.products = none →
      (loadState initialState (some (Blob.valid d))).products = []) ∧
    (d.dailyConfigs = none →
      (loadState initialState (some (Blob.valid d))).dailyConfigs = []) ∧
    (d.serviceTypes = none →
      (loadState initialState (some (Blob.valid d))).serviceTypes =
        defaultServiceTypes) := by
  refine ⟨rfl, rfl, ?_, ?_, ?_, ?_, ?_, ?_, ?_⟩ <;>
    intro h <;> simp [loadState, mergeFromData, initialState, h]

/-- Witness for `load_failure_falls_back`: on the blob with every field
absent, the receipts collection loads empty. -/
theorem load_failure_falls_back_witness :
    (loadState initialState (some (Blob.valid allAbsentStored))).receipts = [] :=
  (load_failure_falls_back "" allAbsentStored).2.2.2.2.1 rfl

/-- Counterexample to C3: in the part_000 revision the save effect is not
guarded by the loaded flag, so during startup with durable data present
the slot is overwritten with the serialized empty initial state (the
stale closure of the first render) before the re-render writes the
loaded data back. -/
theorem unguarded_startup_overwrites :
    serialize initialState ∈ startupWritesUnguarded (some (Blob.valid demoStored)) ∧
    serialize initialState ≠ demoStored := by
  constructor
  · exact List.mem_cons_self _ _
  · intro h
    have hp := congrArg StoredData.professionals h
    simp [serialize, initialState, demoStored] at hp

/-- C3 amended: with the isLoaded guard of Dashboard.tsx the startup
sequence performs exactly one durable write, of the post-load state, so
nothing is written before the load effect completes and the pre-load
empty state is never written over existing data; in particular a slot
produced by a previous save is written back unchanged. -/
theorem guarded_startup_preserves (slot : Option Blob) (st : AppState) :
    startupWritesGuarded slot = [serialize (loadState initialState slot)] ∧
    startupWritesGuarded (some (Blob.valid (serialize st))) = [serialize st] :=
  ⟨rfl, rfl⟩

/-! ## Invariant machinery for the reachability model -/

theorem share_add_net (g : ℚ) (p : ℤ) :
    professionalShare g p + clinicNet g p = g := by
  unfold clinicNet
  ring

theorem autosave_state (m : Machine) : (autosave m).state = m.state := by
  unfold autosave
  split <;> rfl

theorem autosave_slotOK {m : Machine} (hs : StateOK m.state)
    (hm : SlotOK m.slot) : SlotOK (autosave m).slot := by
  unfold autosave
  split
  · intro r hr
    exact hs r hr
  · exact hm

theorem loadState_stateOK {s : AppState} {slot : Option Blob}
    (hs : StateOK s) (hm : SlotOK slot) : StateOK (loadState s slot) := by
  match slot with
  | none => exact hs
  | some (Blob.garbage _) => exact hs
  | some (Blob.valid d) =>
    intro r hr
    have hr' : r ∈ d.receipts.getD s.receipts := hr
    match hd : d.receipts with
    | none =>
      rw [hd] at hr'
      exact hs r hr'
    | some l =>
      rw [hd] at hr'
      have hb : ∀ x ∈ d.receipts.getD [], receiptOK x := hm
      rw [hd] at hb
      exact hb r hr'

theorem importSnapshot_stateOK {s : AppState} {b : Blob} {c : Bool}
    (hs : StateOK s) (hb : BlobOK b) : StateOK (importSnapshot s b c).1 := by
  match b with
  | Blob.garbage _ => exact hs
  | Blob.valid d =>
    rw [importSnapshot]
    split
    · intro r hr
      have hr' : r ∈ d.receipts.getD [] := hr
      exact hb r hr'
    · exact hs

theorem autosave_inv {m : Machine} (hs : StateOK m.state)
    (hm : SlotOK m.slot) :
    StateOK (autosave m).state ∧ SlotOK (autosave m).slot :=
  ⟨by rw [autosave_state]; exact hs, autosave_slotOK hs hm⟩

theorem reachableSound_inv {m : Machine} (h : ReachableSound m) :
    StateOK m.state ∧ SlotOK m.slot := by
  induction h with
  | init =>
    exact ⟨fun r hr => absurd hr (List.not_mem_nil r), trivial⟩
  | load hprev ih =>
    exact autosave_inv (loadState_stateOK ih.1 ih.2) ih.2
  | restart hprev ih =>
    exact ⟨fun r hr => absurd hr (List.not_mem_nil r), ih.2⟩
  | addProf p hprev ih =>
    exact autosave_inv ih.1 ih.2
  | editProf pid nm spec phone perc hprev ih =>
    exact autosave_inv ih.1 ih.2
  | removeProf pid hprev ih =>
    exact autosave_inv ih.1 ih.2
  | addRec i g st me nid dt hprev ih =>
    unfold addReceiptStep
    split
    · refine autosave_inv ?_ ih.2
      intro r hr
      rcases List.mem_append.mp hr with hr1 | hr2
      · exact ih.1 r hr1
      · have hr3 := List.mem_singleton.mp hr2
        subst hr3
        exact share_add_net _ _
    · exact ih
  | removeRec rid hprev ih =>
    exact autosave_inv (fun r hr => ih.1 r (List.mem_of_mem_filter hr)) ih.2
  | importOk b c hb hprev ih =>
    exact autosave_inv (importSnapshot_stateOK ih.1 hb) ih.2

/-- Counterexample to C2: a confirmed import of a parseable snapshot
whose receipt violates the accounting identity yields a reachable state
holding that receipt, so the identity is not preserved by every operation
that can place a receipt in the store. -/
theorem import_breaks_identity :
    Reachable badImportMachine ∧
    badReceipt ∈ badImportMachine.state.receipts ∧
    badReceipt.professionalValue + badReceipt.netClinic ≠
      badReceipt.grossValue := by
  refine ⟨Reachable.importAny (Blob.valid badStored) true
    (Reachable.load Reachable.init), ?_, ?_⟩
  · exact List.mem_singleton.mpr rfl
  · norm_num [badReceipt]

/-- C2 amended: the accounting identity holds for every receipt of every
state reachable by receipt creation, receipt deletion, roster edits,
persistence load, restart and snapshot import, provided every imported
snapshot itself carries only receipts satisfying the identity (import
performs no validation, so an arbitrary snapshot can break it; see the
counterexample). -/
theorem reachable_receipts_identity {m : Machine} (h : ReachableSound m) :
    ∀ r ∈ m.state.receipts,
      r.professionalValue + r.netClinic = r.grossValue :=
  fun r hr => (reachableSound_inv h).1 r hr

/-- Witness for `reachable_receipts_identity` on the machine that loads,
registers a professional at 30 percent and adds a 200 receipt. -/
theorem reachable_receipts_identity_witness :
    soundDemoReceipt.professionalValue + soundDemoReceipt.netClinic =
      soundDemoReceipt.grossValue :=
  reachable_receipts_identity
    (ReachableSound.addRec 0 (some 200) "consulta" "pix" "r1"
      "2024-05-01T10:00:00"
      (ReachableSound.addProf demoProfessional
        (ReachableSound.load ReachableSound.init)))
    soundDemoReceipt (List.mem_singleton.mpr rfl)

/-! ## Sorting lemmas for the daily list -/

theorem charsLtb_irrefl (l : List Char) : charsLtb l l = false := by
  induction l with
  | nil => rfl
  | cons a as ih =>
    rw [charsLtb, if_neg (lt_irrefl a), if_neg (lt_irrefl a)]
    exact ih

theorem charsLtb_asymm :
    ∀ {l₁ l₂ : List Char}, charsLtb l₁ l₂ = true → charsLtb l₂ l₁ = false
  | [], [], h => by simp [charsLtb] at h
  | _ :: _, [], h => by simp [charsLtb] at h
  | [], _ :: _, _ => rfl
  | a :: as, b :: bs, h => by
    rw [charsLtb] at h
    rw [charsLtb]
    by_cases hab : a < b
    · rw [if_neg (lt_asymm hab), if_pos hab]
    · by_cases hba : b < a
      · rw [if_neg hab, if_pos hba] at h
        exact absurd h (by simp)
      · rw [if_neg hab, if_neg hba] at h
        rw [if_neg hba, if_neg hab]
        exact charsLtb_asymm h

theorem charsLtb_negtrans :
    ∀ (l₁ l₂ l₃ : List Char), charsLtb l₁ l₂ = false →
      charsLtb l₂ l₃ = false → charsLtb l₁ l₃ = false
  | [], [], [], _, _ => rfl
  | [], [], _ :: _, _, h2 => by simp [charsLtb] at h2
  | [], _ :: _, _, h1, _ => by simp [charsLtb] at h1
  | _ :: _, _, [], _, _ => rfl
  | _ :: _, [], _ :: _, _, h2 => by simp [charsLtb] at h2
  | a :: as, b :: bs, c :: cs, h1, h2 => by
    rw [charsLtb] at h1 h2
    rw [charsLtb]
    by_cases hab : a < b
    · rw [if_pos hab] at h1
      exact absurd h1 (by simp)
    · by_cases hbc : b < c
      · rw [if_pos hbc] at h2
        exact absurd h2 (by simp)
      · have hba : b ≤ a := not_lt.mp hab
        have hcb : c ≤ b := not_lt.mp hbc
        have hac : ¬ a < c := not_lt.mpr (le_trans hcb hba)
        by_cases hca : c < a
        · rw [if_neg hac, if_pos hca]
        · have hca' : c = a := le_antisymm (le_trans hcb hba) (not_lt.mp hca)
          have hba' : b = a := le_antisymm hba (by rw [← hca']; exact hcb)
          have hbc' : ¬ b < a := by rw [hba']; exact lt_irrefl a
          have hcb' : ¬ c < b := by rw [hca', hba']; exact lt_irrefl a
          rw [if_neg hab, if_neg hbc'] at h1
          rw [if_neg hbc, if_neg hcb'] at h2
          rw [if_neg hac, if_neg hca]
          exact charsLtb_negtrans as bs cs h1 h2

theorem dateLtb_irrefl (s : String) : dateLtb s s = false :=
  charsLtb_irrefl s.data

theorem dateLtb_asymm {s t : String} (h : dateLtb s t = true) :
    dateLtb t s = false :=
  charsLtb_asymm h

theorem dateLtb_negtrans {s t u : String} (h1 : dateLtb s t = false)
    (h2 : dateLtb t u = false) : dateLtb s u = false :=
  charsLtb_negtrans s.data t.data u.data h1 h2

theorem insertDesc_perm (r : Receipt) (l : List Receipt) :
    (insertDesc r l).Perm (r :: l) := by
  induction l with
  | nil => exact List.Perm.refl _
  | cons x xs ih =>
    rw [insertDesc]
    by_cases h : dateLtb r.date x.date = true
    · rw [if_pos h]
      exact (ih.cons x).trans (List.Perm.swap r x xs)
    · rw [if_neg h]

theorem insertDesc_pairwise (r : Receipt) (l : List Receipt)
    (h : l.Pairwise (fun a b => dateLtb a.date b.date = false)) :
    (insertDesc r l).Pairwise (fun a b => dateLtb a.date b.date = false) := by
  induction l with
  | nil => simp [insertDesc]
  | cons x xs ih =>
    rw [List.pairwise_cons] at h
    obtain ⟨hx, hxs⟩ := h
    rw [insertDesc]
    by_cases hlt : dateLtb r.date x.date = true
    · rw [if_pos hlt]
      rw [List.pairwise_cons]
      refine ⟨?_, ih hxs⟩
      intro b hb
      have hmem : b ∈ r :: xs := (insertDesc_perm r xs).mem_iff.mp hb
      rcases List.mem_cons.mp hmem with rfl | hbxs
      · exact dateLtb_asymm hlt
      · exact hx b hbxs
    · rw [if_neg hlt]
      rw [List.pairwise_cons]
      refine ⟨?_, List.pairwise_cons.mpr ⟨hx, hxs⟩⟩
      intro b hb
      have hrx : dateLtb r.date x.date = false :=
        Bool.not_eq_true _ ▸ Bool.of_not_eq_true hlt
      rcases List.mem_cons.mp hb with rfl | hbxs
      · exact hrx
      · exact dateLtb_negtrans hrx (hx b hbxs)

theorem insertDesc_filter (r : Receipt) (l : List Receipt) (d0 : String) :
    (insertDesc r l).filter (fun x => x.date == d0) =
      if r.date == d0 then r :: l.filter (fun x => x.date == d0)
      else l.filter (fun x => x.date == d0) := by
  induction l with
  | nil =>
    by_cases h : r.date == d0 <;> simp [insertDesc, List.filter, h]
  | cons x xs ih =>
    rw [insertDesc]
    by_cases hlt : dateLtb r.date x.date = true
    · rw [if_pos hlt]
      by_cases hx : x.date = d0
      · by_cases hr : r.date = d0
        · exfalso
          rw [hr, ← hx] at hlt
          rw [dateLtb_irrefl] at hlt
          exact Bool.false_ne_true hlt
        · simp [List.filter_cons, hx, hr, ih]
      · simp [List.filter_cons, hx, ih]
    · rw [if_neg hlt]
      by_cases hr : r.date = d0 <;> simp [List.filter_cons, hr]

theorem sortByDateDesc_perm (l : List Receipt) :
    (sortByDateDesc l).Perm l := by
  induction l with
  | nil => exact List.Perm.refl _
  | cons x xs ih =>
    rw [sortByDateDesc]
    exact (insertDesc_perm x (sortByDateDesc xs)).trans (ih.cons x)

theorem sortByDateDesc_pairwise (l : List Receipt) :
    (sortByDateDesc l).Pairwise (fun a b => dateLtb a.date b.date = false) := by
  induction l with
  | nil => simp [sortByDateDesc]
  | cons x xs ih =>
    rw [sortByDateDesc]
    exact insertDesc_pairwise x (sortByDateDesc xs) ih

theorem sortByDateDesc_filter (l : List Receipt) (d0 : String) :
    (sortByDateDesc l).filter (fun x => x.date == d0) =
      l.filter (fun x => x.date == d0) := by
  induction l with
  | nil => rfl
  | cons x xs ih =>
    rw [sortByDateDesc, insertDesc_filter, List.filter_cons]
    by_cases h : x.date == d0 <;> simp [h, ih]

/-- Counterexample to C7: two receipts sharing one timestamp, appended in
the order A then B, come back from dailyReceipts in that same order
because the sort is stable, not with the last-added receipt first. -/
theorem daily_tiebreak_not_reversed :
    dailyReceipts [tieReceiptA, tieReceiptB] "2024-05-01" =
      [tieReceiptA, tieReceiptB] ∧
    tieReceiptA ≠ tieReceiptB := by
  constructor
  · rfl
  · intro h
    have hid := congrArg Receipt.id h
    simp [tieReceiptA, tieReceiptB] at hid

/-- C7 amended: dailyReceipts returns exactly the receipts with a
nonempty date whose date component equals the reference date, in
descending timestamp order; receipts with equal timestamps keep their
insertion order (first-added first), because Array.prototype.sort is
stable. -/
theorem dailyReceipts_spec (l : List Receipt) (d : String) :
    (∀ r, r ∈ dailyReceipts l d ↔
      r ∈ l ∧ r.date ≠ "" ∧ dateComponent r.date = d) ∧
    (dailyReceipts l d).Pairwise (fun a b => dateLtb a.date b.date = false) ∧
    (∀ d0 : String, (dailyReceipts l d).filter (fun x => x.date == d0) =
      (l.filter (fun r => !(r.date == "") &&
        (dateComponent r.date == d))).filter (fun x => x.date == d0)) := by
  refine ⟨?_, sortByDateDesc_pairwise _, fun d0 => sortByDateDesc_filter _ d0⟩
  intro r
  rw [dailyReceipts, (sortByDateDesc_perm _).mem_iff, List.mem_filter]
  simp

/-- C8: monthly aggregation is calendar-local.  A receipt is kept exactly
when the month and year fields of its timestamp match those of the
reference date; in particular the receipt timestamped on the last second
of May 2024 is included for every reference date in May 2024 and excluded
for every reference date in June. -/
theorem monthlyReceipts_calendar (l : List Receipt) (d : String) :
    (∀ r, r ∈ monthlyReceipts l d ↔
      r ∈ l ∧ monthOf r.date = monthOf d ∧ yearOf r.date = yearOf d) ∧
    (∀ ref : String, monthOf ref = "05" → yearOf ref = "2024" →
      mayReceipt ∈ monthlyReceipts [mayReceipt] ref) ∧
    (∀ ref : String, monthOf ref = "06" →
      mayReceipt ∉ monthlyReceipts [mayReceipt] ref) := by
  refine ⟨?_, ?_, ?_⟩
  · intro r
    rw [monthlyReceipts, List.mem_filter]
    simp
  · intro ref h5 h24
    rw [monthlyReceipts, List.mem_filter]
    refine ⟨List.mem_singleton.mpr rfl, ?_⟩
    rw [Bool.and_eq_true, beq_iff_eq, beq_iff_eq, h5, h24]
    exact ⟨by decide, by decide⟩
  · intro ref h6 hmem
    rw [monthlyReceipts, List.mem_filter] at hmem
    have hb := hmem.2
    rw [Bool.and_eq_true, beq_iff_eq, beq_iff_eq, h6] at hb
    exact absurd hb.1 (by decide)

/-- Witness for `monthlyReceipts_calendar` at the reference date
2024-05-15. -/
theorem monthlyReceipts_calendar_witness :
    mayReceipt ∈ monthlyReceipts [mayReceipt] "2024-05-15" :=
  (monthlyReceipts_calendar [] "").2.1 "2024-05-15" (by decide) (by decide)

/-! ## Payment-method aggregation lemmas -/

theorem foldl_add_shift (f : Receipt → ℚ) :
    ∀ (l : List Receipt) (a : ℚ),
      l.foldl (fun s r => s + f r) a = a + l.foldl (fun s r => s + f r) 0
  | [], a => by simp
  | x :: xs, a => by
    rw [List.foldl_cons, List.foldl_cons, foldl_add_shift f xs (a + f x),
      foldl_add_shift f xs (0 + f x)]
    ring

theorem sumGross_cons (x : Receipt) (l : List Receipt) :
    sumGross (x :: l) = x.grossValue + sumGross l := by
  rw [sumGross, List.foldl_cons, foldl_add_shift]
  rw [show l.foldl (fun s r => s + r.grossValue) 0 = sumGross l from rfl]
  ring

theorem foldl_accountStep (l : List Receipt) (acc : AccountTotals) :
    l.foldl accountStep acc =
      ⟨acc.pix + sumGross (l.filter fun r => r.paymentMethod == "pix"),
       acc.dinheiro + sumGross (l.filter fun r => r.paymentMethod == "dinheiro"),
       acc.cartao + sumGross (l.filter fun r => r.paymentMethod == "cartao"),
       acc.unimed + sumGross (l.filter fun r => r.paymentMethod == "unimed")⟩ := by
  induction l generalizing acc with
  | nil =>
    cases acc
    simp [sumGross]
  | cons x xs ih =>
    rw [List.foldl_cons, ih]
    unfold accountStep
    by_cases h1 : x.paymentMethod = "pix"
    · simp [h1, List.filter_cons, sumGross_cons, add_assoc]
    · by_cases h2 : x.paymentMethod = "dinheiro"
      · simp [h1, h2, List.filter_cons, sumGross_cons, add_assoc]
      · by_cases h3 : x.paymentMethod = "cartao"
        · simp [h1, h2, h3, List.filter_cons, sumGross_cons, add_assoc]
        · by_cases h4 : x.paymentMethod = "unimed"
          · simp [h1, h2, h3, h4, List.filter_cons, sumGross_cons, add_assoc]
          · simp [h1, h2, h3, h4, List.filter_cons]

theorem filter_sums_cover :
    ∀ l : List Receipt,
      (∀ r ∈ l, r.paymentMethod = "pix" ∨ r.paymentMethod = "dinheiro" ∨
        r.paymentMethod = "cartao" ∨ r.paymentMethod = "unimed") →
      sumGross (l.filter fun r => r.paymentMethod == "pix") +
        sumGross (l.filter fun r => r.paymentMethod == "dinheiro") +
        sumGross (l.filter fun r => r.paymentMethod == "cartao") +
        sumGross (l.filter fun r => r.paymentMethod == "unimed") = sumGross l
  | [], _ => by simp [sumGross]
  | x :: xs, hall => by
    have ih := filter_sums_cover xs
      (fun r hr => hall r (List.mem_cons_of_mem x hr))
    rcases hall x (List.mem_cons_self x xs) with h | h | h | h <;>
      simp [List.filter_cons, h, sumGross_cons] <;> rw [← ih] <;> ring

/-- C9: dailyByPaymentMethod maps each of the four enumerated payment
methods to the sum of gross values of the receipts using it (a method
with no receipts keeps value 0, the sum over the empty filter), and when
every payment method is one of the four values the four sums add up to
the daily gross total. -/
theorem dailyByPaymentMethod_spec (l : List Receipt) :
    (dailyAccountTotals l).pix =
      sumGross (l.filter fun r => r.paymentMethod == "pix") ∧
    (dailyAccountTotals l).dinheiro =
      sumGross (l.filter fun r => r.paymentMethod == "dinheiro") ∧
    (dailyAccountTotals l).cartao =
      sumGross (l.filter fun r => r.paymentMethod == "cartao") ∧
    (dailyAccountTotals l).unimed =
      sumGross (l.filter fun r => r.paymentMethod == "unimed") ∧
    ((∀ r ∈ l, r.paymentMethod = "pix" ∨ r.paymentMethod = "dinheiro" ∨
        r.paymentMethod = "cartao" ∨ r.paymentMethod = "unimed") →
      (dailyAccountTotals l).pix + (dailyAccountTotals l).dinheiro +
        (dailyAccountTotals l).cartao + (dailyAccountTotals l).unimed =
        sumGross l) := by
  rw [dailyAccountTotals, foldl_accountStep]
  refine ⟨by simp, by simp, by simp, by simp, ?_⟩
  intro hall
  simp only [zero_add]
  exact filter_sums_cover l hall

/-- Witness for `dailyByPaymentMethod_spec` on a single pix receipt. -/
theorem dailyByPaymentMethod_spec_witness :
    (dailyAccountTotals [demoReceipt]).pix +
      (dailyAccountTotals [demoReceipt]).dinheiro +
      (dailyAccountTotals [demoReceipt]).cartao +
      (dailyAccountTotals [demoReceipt]).unimed = sumGross [demoReceipt] :=
  (dailyByPaymentMethod_spec [demoReceipt]).2.2.2.2 (fun r hr => by
    have h := List.mem_singleton.mp hr
    subst h
    exact Or.inl rfl)

/-- Counterexample to C10: after deleting the only professional, the
breakdown for the selected index is null, not a record of zero totals
(while the receipts collection is untouched). -/
theorem deleted_breakdown_is_none :
    (removeProfessional demoLedger demoProfessional.id).receipts =
      demoLedger.receipts ∧
    selectedProfDetails (some 0)
      (removeProfessional demoLedger demoProfessional.id).professionals
      demoLedger.receipts = none ∧
    selectedProfDetails (some 0)
      (removeProfessional demoLedger demoProfessional.id).professionals
      demoLedger.receipts ≠ some (zeroDetailsFor demoProfessional) := by
  have h2 : selectedProfDetails (some 0)
      (removeProfessional demoLedger demoProfessional.id).professionals
      demoLedger.receipts = none := rfl
  exact ⟨rfl, h2, by rw [h2]; exact fun h => Option.noConfusion h⟩

/-- C10 amended: deleting a professional leaves the receipts collection
exactly unchanged (every receipt keeps its denormalized professionalId
and professionalName); the breakdown computed when the selected index no
longer resolves to a professional is null rather than an error, and a
professional present with no matching daily receipts gets a breakdown of
zero totals. -/
theorem removeProfessional_frame (s : AppState) (pid : String) (i : ℕ)
    (profs : List Professional) (dRecs : List Receipt)
    (prof : Professional) :
    (removeProfessional s pid).receipts = s.receipts ∧
    (profs[i]? = none → selectedProfDetails (some i) profs dRecs = none) ∧
    (profs[i]? = some prof → (∀ r ∈ dRecs, r.professionalId ≠ prof.id) →
      selectedProfDetails (some i) profs dRecs =
        some (zeroDetailsFor prof)) := by
  refine ⟨rfl, ?_, ?_⟩
  · intro h
    simp [selectedProfDetails, h]
  · intro h hno
    have hfil : dRecs.filter (fun r => r.professionalId == prof.id) = [] := by
      rw [List.filter_eq_nil_iff]
      intro r hr
      simpa using hno r hr
    simp [selectedProfDetails, h, hfil, zeroDetailsFor, dailyAccountTotals,
      sumGross, sumProfessional, sumNet]

/-- Witness for `removeProfessional_frame`: the breakdown for index 0 of
an empty roster is null. -/
theorem removeProfessional_frame_witness :
    selectedProfDetails (some 0) ([] : List Professional) [] = none :=
  (removeProfessional_frame demoLedger "p1" 0 [] [] demoProfessional).2.1 rfl

end CentroMedico
